import Mathlib

/-!
Verification of the ingestion and retrieval core of the Document-Mining backend.

The JavaScript source is shallowly embedded in Lean:

* `backend/src/routes/chat.js`, hybrid search route: `combineResults`,
  `hybridSearch`, and the lexical route's ordering (`textSearch`).
* `backend/src/services/jobProcessor.js`: the worker's
  `handleDocumentProcessing`, and the alternate `DocumentProcessor`'s
  `splitIntoChunks` chunker that is concatenated into the same file.
* `backend/src/services/documentProcessor.js`: the active `processDocument`
  control flow (langchain-splitter based).
* the stuck-document monitor (`monitorStuckDocuments`).
* `backend/src/config/ollama.js`: `generateEmbedding` with its retry loop.
* `backend/src/config/database.js`: the `cosine_similarity` SQL function.

Database queries are modelled as pure functions over explicit row lists;
network calls are modelled as oracles from attempt number to outcome;
JavaScript numbers are modelled as exact rationals where their value matters.
-/

deriving instance DecidableEq for Except

namespace DocMining

/-! ### Hybrid search (chat.js POST /search/hybrid)

A sub-search row carries the chunk id, the chunk index and the sub-search's
score (`text_score` from `ts_rank` for the lexical sub-search,
`semantic_score` from `cosine_similarity` for the semantic one).  Rows coming
from SQL have pairwise distinct `id`s (primary key). -/

structure SubRow where
  id : Nat
  chunk_index : Nat
  score : ℚ
deriving DecidableEq

/-- An entry of `combinedResults` in the hybrid route: the row together with
its fused `score` and its `search_type` label. -/
structure MergedRow where
  id : Nat
  chunk_index : Nat
  score : ℚ
  search_type : String
deriving DecidableEq

/-- Entry pushed for a text sub-search row: `{ ...row, score: row.text_score || 0,
search_type: 'text' }`.  In the exact-rational model `row.text_score || 0` is
the score itself (`ts_rank` never yields null, and `0 || 0 = 0`). -/
def textRow (r : SubRow) : MergedRow :=
  { id := r.id, chunk_index := r.chunk_index, score := r.score, search_type := "text" }

/-- Entry pushed for a semantic sub-search row not seen before:
`{ ...row, score: row.semantic_score || 0, search_type: 'semantic' }`. -/
def semanticRow (r : SubRow) : MergedRow :=
  { id := r.id, chunk_index := r.chunk_index, score := r.score, search_type := "semantic" }

/-- Embedding of the `existingIndex = combinedResults.findIndex(...)` branch:
the first entry with the matching id is relabeled `hybrid` and its score
becomes `Math.max(existing.score, row.semantic_score || 0)`. -/
def markHybrid : List MergedRow → SubRow → List MergedRow
  | [], _ => []
  | m :: ms, r =>
    if m.id = r.id then
      { m with search_type := "hybrid", score := max m.score r.score } :: ms
    else
      m :: markHybrid ms r

/-- Embedding of the first `forEach` of the hybrid route: text rows are pushed
(with label `text`) when their id is not in `seenIds`; the state is the pair
`(combinedResults, seenIds)`. -/
def addTextRows : List MergedRow × List Nat → List SubRow → List MergedRow × List Nat
  | st, [] => st
  | (acc, seen), r :: rs =>
    if r.id ∈ seen then addTextRows (acc, seen) rs
    else addTextRows (acc ++ [textRow r], seen ++ [r.id]) rs

/-- Embedding of the second `forEach`: a semantic row with an unseen id is
pushed with label `semantic`; a row whose id was already seen relabels the
existing entry `hybrid` and takes the max score. -/
def addSemanticRows : List MergedRow × List Nat → List SubRow → List MergedRow × List Nat
  | st, [] => st
  | (acc, seen), r :: rs =>
    if r.id ∈ seen then addSemanticRows (markHybrid acc r, seen) rs
    else addSemanticRows (acc ++ [semanticRow r], seen ++ [r.id]) rs

/-- Embedding of the combine-and-deduplicate phase.  `Promise.allSettled`
means each sub-search independently either fulfilled (`some rows`) or
rejected (`none`); a rejected sub-search contributes nothing and no error is
raised. -/
def combineResults (textRes semRes : Option (List SubRow)) : List MergedRow :=
  let st1 := match textRes with
    | some rows => addTextRows ([], []) rows
    | none => ([], [])
  let st2 := match semRes with
    | some rows => addSemanticRows st1 rows
    | none => st1
  st2.1

/-- Ordering used by `combinedResults.sort((a, b) => b.score - a.score)`:
`a` may come before `b` exactly when the comparator is ≤ 0. -/
def scoreDesc (a b : MergedRow) : Prop := b.score ≤ a.score

instance : DecidableRel scoreDesc := fun a b => inferInstanceAs (Decidable (b.score ≤ a.score))

instance : IsTotal MergedRow scoreDesc := ⟨fun a b => le_total b.score a.score⟩

instance : IsTrans MergedRow scoreDesc := ⟨fun _ _ _ h1 h2 => le_trans h2 h1⟩

/-- Embedding of the tail of the hybrid route: sort the combined results by
score descending (ECMAScript `Array.prototype.sort` is a stable comparison
sort, modelled by the stable `List.insertionSort`) and keep the first `limit`
entries (`combinedResults.slice(0, limit)`). -/
def hybridSearch (limit : Nat) (textRes semRes : Option (List SubRow)) : List MergedRow :=
  (List.insertionSort scoreDesc (combineResults textRes semRes)).take limit

/-! ### Lexical search ordering (chat.js POST /search/text) -/

/-- A candidate row of the lexical search after the WHERE filters, carrying
its `ts_rank` value. -/
structure TextSearchRow where
  id : Nat
  chunk_index : Nat
  rank : ℚ
deriving DecidableEq

/-- Ordering of `ORDER BY rank DESC, dc.chunk_index`: higher rank first and,
at equal rank, smaller chunk index first. -/
def rankOrder (a b : TextSearchRow) : Prop :=
  b.rank < a.rank ∨ (a.rank = b.rank ∧ a.chunk_index ≤ b.chunk_index)

instance : DecidableRel rankOrder := fun a b =>
  inferInstanceAs (Decidable (b.rank < a.rank ∨ (a.rank = b.rank ∧ a.chunk_index ≤ b.chunk_index)))

instance : IsTotal TextSearchRow rankOrder := by
  constructor
  intro a b
  rcases lt_trichotomy a.rank b.rank with h | h | h
  · exact Or.inr (Or.inl h)
  · rcases Nat.le_total a.chunk_index b.chunk_index with hi | hi
    · exact Or.inl (Or.inr ⟨h, hi⟩)
    · exact Or.inr (Or.inr ⟨h.symm, hi⟩)
  · exact Or.inl (Or.inl h)

instance : IsTrans TextSearchRow rankOrder := by
  constructor
  intro a b c hab hbc
  rcases hab with h1 | ⟨h1, i1⟩
  · rcases hbc with h2 | ⟨h2, _⟩
    · exact Or.inl (h2.trans h1)
    · exact Or.inl (h2 ▸ h1)
  · rcases hbc with h2 | ⟨h2, i2⟩
    · exact Or.inl (h1 ▸ h2)
    · exact Or.inr ⟨h1.trans h2, i1.trans i2⟩

/-- Embedding of the lexical route's result ordering:
`ORDER BY rank DESC, dc.chunk_index LIMIT $n` over the filtered candidate
rows. -/
def textSearch (rows : List TextSearchRow) (limit : Nat) : List TextSearchRow :=
  (List.insertionSort rankOrder rows).take limit

/-! ### Chunker (jobProcessor.js, `DocumentProcessor.splitIntoChunks`) -/

def chunkSize : Nat := 1000

def chunkOverlap : Nat := 200

/-- Characters that terminate a sentence in the regex `/[^\.!?]+[\.!?]+/g`. -/
def isSentenceEnd (c : Char) : Bool := c = '.' || c = '!' || c = '?'

/-- Single left-to-right pass of `text.match(/[^\.!?]+[\.!?]+/g)`: `bodyRev`
holds the non-terminator run and `termsRev` the terminator run of the match
being built, both reversed; unmatched characters (leading terminators, a
trailing run with no terminator) are skipped. -/
def sentencesAux : List Char → List Char → List Char → List (List Char)
  | [], bodyRev, termsRev =>
    if bodyRev ≠ [] ∧ termsRev ≠ [] then [(termsRev ++ bodyRev).reverse] else []
  | c :: rest, bodyRev, termsRev =>
    if isSentenceEnd c then
      if bodyRev = [] then sentencesAux rest [] []
      else sentencesAux rest bodyRev (c :: termsRev)
    else
      if termsRev ≠ [] then (termsRev ++ bodyRev).reverse :: sentencesAux rest [c] []
      else sentencesAux rest (c :: bodyRev) []

/-- Embedding of `text.match(/[^\.!?]+[\.!?]+/g)`: each match is a maximal
run of non-terminators followed by a maximal run of terminators. -/
def sentencesCore (text : List Char) : List (List Char) :=
  sentencesAux text [] []

/-- Fallback `|| [text]` of the source: when the regex matches nothing the
whole text is the single sentence. -/
def sentencesOf (text : List Char) : List (List Char) :=
  match sentencesCore text with
  | [] => [text]
  | s :: ss => s :: ss

/-- Model of JavaScript `String.prototype.trim`. -/
def trimChars (cs : List Char) : List Char :=
  ((cs.dropWhile Char.isWhitespace).reverse.dropWhile Char.isWhitespace).reverse

/-- Embedding of the sentence-accumulation loop of `splitIntoChunks`: the
state is `(currentChunk, currentLength)`; on a boundary the current chunk is
pushed trimmed and the next chunk is seeded with
`currentChunk.substring(0, chunkOverlap)` followed by the sentence. -/
def chunkLoop : List (List Char) → List Char → Nat → List (List Char)
  | [], currentChunk, _ =>
    if trimChars currentChunk = [] then [] else [trimChars currentChunk]
  | sentence :: rest, currentChunk, currentLength =>
    if currentLength + sentence.length > chunkSize ∧ currentChunk ≠ [] then
      let seeded := currentChunk.take chunkOverlap ++ sentence
      trimChars currentChunk :: chunkLoop rest seeded seeded.length
    else
      chunkLoop rest (currentChunk ++ sentence) (currentLength + sentence.length)

/-- Embedding of `DocumentProcessor.splitIntoChunks` (jobProcessor.js):
sentence split, accumulation with overlap seeding, final
`filter(chunk => chunk.length > 50)`. -/
def splitIntoChunks (text : List Char) : List (List Char) :=
  (chunkLoop (sentencesOf text) [] 0).filter (fun c => c.length > 50)

/-! ### Active document processor (documentProcessor.js, `processDocument`) -/

/-- Outcome of one `processDocument` run: the last status written to the
`documents` row, the `chunk_count` written by the completion update (`none`
when the failure path runs, which touches only `status`), and the value
returned or the error rethrown. -/
structure ProcOutcome where
  status : String
  chunk_count : Option Nat
  result : Except String Nat
deriving DecidableEq

/-- Embedding of the control flow of the active `processDocument`
(documentProcessor.js): `loaded` is the loader's outcome (`none` when
`loadDocument` threw), `splitter` is the external
`RecursiveCharacterTextSplitter`, and `embed i` is the per-chunk embedding
outcome (`none` models a thrown embedding error, after which the chunk is
still pushed with a null embedding).  The `chunks.length === 0` guard throws
`No chunks generated from document`, which the catch branch turns into
status `failed`. -/
def processDocument (loaded : Option (List String)) (splitter : List String → List String)
    (embed : Nat → Option (List Int)) : ProcOutcome :=
  match loaded with
  | none => ⟨"failed", none, .error "Document loading failed"⟩
  | some docs =>
    if docs.length = 0 then
      ⟨"failed", none, .error "No content extracted from document"⟩
    else
      let chunks := splitter docs
      if chunks.length = 0 then
        ⟨"failed", none, .error "No chunks generated from document"⟩
      else
        let processedChunks := chunks.mapIdx (fun i c => (i, c, embed i))
        ⟨"completed", some processedChunks.length, .ok processedChunks.length⟩

/-! ### Queue jobs and the stuck-document monitor -/

/-- Payload pushed to the `document_processing` queue. -/
structure QueueJob where
  documentId : String
  filePath : String
  mimeType : String
  retryCount : Nat
  maxRetries : Nat
deriving DecidableEq

/-- A row of the `documents` table as seen by the monitor's query, with its
age (seconds since the probed timestamp column) made explicit. -/
structure DocRow where
  id : String
  status : String
  seconds_since_update : Nat
  file_path : String
  mime_type : String
deriving DecidableEq

def STUCK_THRESHOLD_MINUTES : Nat := 15

def MAX_RETRIES : Nat := 3

/-- Embedding of the monitor's WHERE clause: status `pending` or
`processing` and the timestamp strictly older than the 15-minute
threshold. -/
def isStuck (d : DocRow) : Bool :=
  (d.status == "pending" || d.status == "processing") &&
    decide (STUCK_THRESHOLD_MINUTES * 60 < d.seconds_since_update)

/-- Ordering of the monitor's `ORDER BY timestamp ASC`: oldest (largest age)
first. -/
def oldestFirst (a b : DocRow) : Prop := b.seconds_since_update ≤ a.seconds_since_update

instance : DecidableRel oldestFirst := fun a b =>
  inferInstanceAs (Decidable (b.seconds_since_update ≤ a.seconds_since_update))

instance : IsTotal DocRow oldestFirst := ⟨fun a b => Nat.le_total b.seconds_since_update a.seconds_since_update⟩

instance : IsTrans DocRow oldestFirst := ⟨fun _ _ _ h1 h2 => le_trans h2 h1⟩

/-- Embedding of `monitorStuckDocuments`: select the stuck documents (oldest
first, `LIMIT 10`), reset each to `pending`, and push a queue job with the
constant `retryCount: 1` (the source's literal, commented `Simple retry
count`) and `maxRetries: MAX_RETRIES`. -/
def monitorStuckDocuments (docs : List DocRow) : List DocRow × List QueueJob :=
  let stuckDocs := (List.insertionSort oldestFirst (docs.filter isStuck)).take 10
  (stuckDocs.map (fun d => { d with status := "pending" }),
   stuckDocs.map (fun d => ⟨d.id, d.file_path, d.mime_type, 1, MAX_RETRIES⟩))

/-! ### Ingestion worker (jobProcessor.js, `handleDocumentProcessing`) -/

/-- Queue payload as received by the worker; `none` models a missing (falsy)
field. -/
structure JobPayload where
  documentId : Option String
  filePath : Option String
  mimeType : Option String

/-- The `processing_jobs` row of the document, as mutated by the worker. -/
structure ProcessingJobRow where
  status : String
  retry_count : Nat
  error_message : Option String
deriving DecidableEq

/-- Result of one `handleDocumentProcessing` call: the final state of the
job row, any payloads pushed back onto the queue, and the value returned or
the error rethrown. -/
structure HandleOutcome where
  row : ProcessingJobRow
  requeued : List QueueJob
  result : Except String Unit
deriving DecidableEq

/-- Embedding of the worker's `handleDocumentProcessing`: invalid payloads
throw before touching the row; otherwise the row is set `processing`, then
`completed` on success, or `failed` with the error message on failure, after
which the error is rethrown.  No statement of the function touches
`retry_count` and nothing is pushed back onto the queue. -/
def handleDocumentProcessing (job : JobPayload) (row : ProcessingJobRow)
    (processResult : Except String Unit) : HandleOutcome :=
  match job.documentId, job.filePath, job.mimeType with
  | some _, some _, some _ =>
    let rowProcessing := { row with status := "processing" }
    match processResult with
    | .ok _ => ⟨{ rowProcessing with status := "completed" }, [], .ok ()⟩
    | .error e =>
      ⟨{ rowProcessing with status := "failed", error_message := some e }, [], .error e⟩
  | _, _, _ => ⟨row, [], .error "Invalid document processing job data"⟩

/-! ### Embedding client (ollama.js, `generateEmbedding`) -/

/-- Shape of the parsed JSON body of an embeddings response, mirroring the
three recognized layouts. -/
inductive RespShape where
  | embeddingField (e : List Int)
  | dataField (e : List Int)
  | embeddingsField (e : List Int)
  | unrecognized
deriving DecidableEq

/-- Outcome of one `fetch` of an embeddings endpoint: aborted by the timeout
controller, rejected with a network error message, or an HTTP response with
status, body text, content-type header and parsed shape. -/
inductive FetchOutcome where
  | aborted
  | networkError (msg : String)
  | response (status : Nat) (body : String) (contentType : String) (shape : RespShape)
deriving DecidableEq

/-- Substring occurrence on character lists (`String.prototype.includes`). -/
def prefixOfChars : List Char → List Char → Bool
  | [], _ => true
  | _ :: _, [] => false
  | a :: as, b :: bs => a == b && prefixOfChars as bs

/-- Helper for `containsSub`: does `pat` occur in `s`? -/
def subOccurs (pat : List Char) : List Char → Bool
  | [] => pat.isEmpty
  | c :: rest => prefixOfChars pat (c :: rest) || subOccurs pat rest

/-- Model of JavaScript `msg.includes(pat)`. -/
def containsSub (s pat : String) : Bool := subOccurs pat.data s.data

/-- Default HTTP reason phrases used for `response.statusText`. -/
def statusText (status : Nat) : String :=
  if status = 401 then "Unauthorized"
  else if status = 403 then "Forbidden"
  else if status = 404 then "Not Found"
  else if status = 500 then "Internal Server Error"
  else ""

/-- Message of the error thrown for a non-ok, non-404 response:
`HTTP status: errorText or statusText` (JavaScript `||` falls back when the
body text is empty). -/
def httpErrorMessage (status : Nat) (body : String) : String :=
  "HTTP " ++ toString status ++ ": " ++ (if body = "" then statusText status else body)

/-- Embedding of the retry-skip test in the catch block:
`error.message.includes('Invalid input') || ...includes('Unauthorized') ||
...includes('403')`. -/
def skipRetry (msg : String) : Bool :=
  containsSub msg "Invalid input" || containsSub msg "Unauthorized" || containsSub msg "403"

/-- Embedding of `tryAlternativeEmbeddingEndpoint`: on an ok response it
accepts only the `embedding` array layout; otherwise it throws, and the
outer catch decides on retrying. -/
def tryAlternativeEmbeddingEndpoint : FetchOutcome → Except String (List Int)
  | .aborted => .error "network timeout"
  | .networkError m => .error m
  | .response status _ _ shape =>
    if 200 ≤ status ∧ status < 300 then
      match shape with
      | .embeddingField e => .ok e
      | _ => .error "Alternative endpoint returned invalid format"
    else .error ("Alternative endpoint failed: " ++ toString status)

/-- Embedding of one attempt of the `for` loop body of `generateEmbedding`:
non-ok responses throw (404 first tries the alternate endpoint and returns
its value on success), non-JSON content throws, the three recognized shapes
return their array unless it is empty, anything else throws the
unexpected-format error. -/
def attemptResult (primary alt : FetchOutcome) : Except String (List Int) :=
  match primary with
  | .aborted => .error "The operation was aborted."
  | .networkError m => .error m
  | .response status body contentType shape =>
    if 200 ≤ status ∧ status < 300 then
      if !containsSub contentType "application/json" then
        .error ("Expected JSON response, got " ++ contentType ++ ": " ++ body.take 200)
      else
        match shape with
        | .embeddingField e =>
          if e.length = 0 then .error "Invalid embedding: not an array or empty" else .ok e
        | .dataField e =>
          if e.length = 0 then .error "Invalid embedding: not an array or empty" else .ok e
        | .embeddingsField e =>
          if e.length = 0 then .error "Invalid embedding: not an array or empty" else .ok e
        | .unrecognized => .error "Unexpected response format from embeddings API"
    else if status = 404 then tryAlternativeEmbeddingEndpoint alt
    else .error (httpErrorMessage status body)

/-- Result of a whole `generateEmbedding` call, together with the number of
requests issued to the primary endpoint. -/
structure EmbedRun where
  result : Except String (List Int)
  requests : Nat
deriving DecidableEq

/-- Embedding of the retry loop `for (attempt = 1; attempt <= maxRetries)`:
`remaining` counts the attempts still allowed, `lastErr` is
`lastError.message`; a caught error matching `skipRetry` is rethrown at
once, otherwise the next attempt runs, and after the last attempt the
aggregated error is thrown. -/
def generateEmbeddingLoop (primary alt : Nat → FetchOutcome) (maxRetries : Nat) :
    Nat → Nat → String → EmbedRun
  | _, 0, lastErr =>
    ⟨.error ("Embedding generation failed after " ++ toString maxRetries ++
        " attempts: " ++ lastErr), 0⟩
  | attempt, remaining + 1, _ =>
    match attemptResult (primary attempt) (alt attempt) with
    | .ok e => ⟨.ok e, 1⟩
    | .error msg =>
      if skipRetry msg then ⟨.error msg, 1⟩
      else
        let r := generateEmbeddingLoop primary alt maxRetries (attempt + 1) remaining msg
        ⟨r.result, r.requests + 1⟩

/-- Embedding of `OllamaService.generateEmbedding`: input validation
(`none` models a non-string argument, the empty string is falsy, a
whitespace-only string fails the `cleanText` check), then the retry loop.
The 8000-character truncation only shortens the request body and is
irrelevant to the oracle model. -/
def generateEmbedding (text : Option String) (primary alt : Nat → FetchOutcome)
    (maxRetries : Nat) : EmbedRun :=
  match text with
  | none => ⟨.error "Invalid input: text must be a non-empty string", 0⟩
  | some t =>
    if t = "" then ⟨.error "Invalid input: text must be a non-empty string", 0⟩
    else if (trimChars t.data).length = 0 then ⟨.error "Invalid input: text cannot be empty", 0⟩
    else generateEmbeddingLoop primary alt maxRetries 1 maxRetries ""

/-! ### Stored cosine similarity (database.js) -/

/-- Result of the `cosine_similarity` SQL function: `zero` for every guarded
early `RETURN 0`; `ratio dot normA normB` records that the final
`RETURN dot_product / (sqrt(norm_a) * sqrt(norm_b))` was reached with those
accumulator values. -/
inductive CosResult where
  | zero
  | ratio (dot normA normB : ℚ)
deriving DecidableEq

/-- Embedding of the PL/pgSQL `cosine_similarity(a JSONB, b JSONB)`: NULL
arguments and length mismatches return 0, the loop accumulates dot product
and squared norms, a zero norm returns 0, and only then is the division
reached. -/
def cosine_similarity (a b : Option (List ℚ)) : CosResult :=
  match a, b with
  | none, _ => .zero
  | some _, none => .zero
  | some va, some vb =>
    if va.length ≠ vb.length then .zero
    else
      let dot := ((va.zip vb).map (fun p => p.1 * p.2)).sum
      let normA := (va.map (fun x => x * x)).sum
      let normB := (vb.map (fun x => x * x)).sum
      if normA = 0 ∨ normB = 0 then .zero
      else .ratio dot normA normB

/-! ### Specification bridge and concrete instances used in the proofs -/

/-- Effect of the whole semantic `forEach` on one already-pushed entry: if a
semantic row shares its id, the entry becomes `hybrid` with the max score.
Used only as a proof bridge. -/
def fuseWith (ss : List SubRow) (m : MergedRow) : MergedRow :=
  match ss.find? (fun s => s.id == m.id) with
  | some s => { m with search_type := "hybrid", score := max m.score s.score }
  | none => m

/-- Pointwise description of the state of `combinedResults` after the
semantic `forEach` has run over `ss` starting from `acc`: entries of `acc`
matched by some semantic row become `hybrid` with the max score, and the
unmatched semantic rows are appended.  Used only as a proof bridge. -/
def semSpec (acc : List MergedRow) (ss : List SubRow) : List MergedRow :=
  acc.map (fuseWith ss) ++
    (ss.filter (fun s => s.id ∉ acc.map MergedRow.id)).map semanticRow

/-- First sentence of the C3 counterexample text: 999 non-terminator
characters (a `b` then 998 `a`s) closed by a period — 1000 characters. -/
def cS1 : List Char := 'b' :: List.replicate 998 'a' ++ ['.']

/-- Second sentence of the C3 counterexample text: 61 characters. -/
def cS2 : List Char := ' ' :: List.replicate 59 'c' ++ ['.']

/-- Text whose chunking crosses the 1000-character boundary once. -/
def cText3 : List Char := cS1 ++ cS2

/-- A document stuck in `processing` for 20 minutes (1200 seconds). -/
def stuckDoc : DocRow := ⟨"doc-1", "processing", 1200, "a.pdf", "application/pdf"⟩

/-- A document updated 5 minutes ago, within the threshold window. -/
def freshDoc : DocRow := ⟨"doc-2", "processing", 300, "b.pdf", "application/pdf"⟩

/-- Oracle for the C7 counterexample: the first request returns HTTP 200 with
a JSON body of unrecognized shape, the second returns a well-formed
embedding. -/
def primaryCexC7 : Nat → FetchOutcome := fun n =>
  if n = 1 then .response 200 "" "application/json" .unrecognized
  else .response 200 "" "application/json" (.embeddingField [1])

/-! ## Theorems -/

/-- Squared-norm accumulators of `cosine_similarity` are nonnegative. -/
theorem sum_sq_nonneg (l : List ℚ) : 0 ≤ (l.map (fun x => x * x)).sum := by
  induction l with
  | nil => simp
  | cons x xs ih =>
    simp only [List.map_cons, List.sum_cons]
    exact add_nonneg (mul_self_nonneg x) ih

/-- C10: the stored `cosine_similarity(a, b)` function is total on its two
JSONB-array arguments: it returns 0 rather than raising or dividing by zero
whenever either argument is NULL, the two arrays have different lengths, or
either vector has zero norm; the final division is reached only when both
squared norms are strictly positive, so its denominator
`sqrt(norm_a) * sqrt(norm_b)` is nonzero. -/
theorem C10_cosine_total (a b : Option (List ℚ)) :
    (a = none → cosine_similarity a b = .zero) ∧
    (b = none → cosine_similarity a b = .zero) ∧
    (∀ va vb, a = some va → b = some vb → va.length ≠ vb.length →
        cosine_similarity a b = .zero) ∧
    (∀ va vb, a = some va → b = some vb →
        ((va.map (fun x => x * x)).sum = 0 ∨ (vb.map (fun x => x * x)).sum = 0) →
        cosine_similarity a b = .zero) ∧
    (∀ dot normA normB, cosine_similarity a b = .ratio dot normA normB →
        0 < normA ∧ 0 < normB ∧
          Real.sqrt (normA : ℝ) * Real.sqrt (normB : ℝ) ≠ 0) := by
  refine ⟨?_, ?_, ?_, ?_, ?_⟩
  · rintro rfl
    cases b <;> rfl
  · rintro rfl
    cases a <;> rfl
  · rintro va vb rfl rfl hlen
    simp [cosine_similarity, hlen]
  · rintro va vb rfl rfl hz
    by_cases hlen : va.length ≠ vb.length
    · simp [cosine_similarity, hlen]
    · simp [cosine_similarity, hlen, hz]
  · intro dot normA normB h
    obtain _ | va := a
    · simp [cosine_similarity] at h
    obtain _ | vb := b
    · simp [cosine_similarity] at h
    by_cases hlen : va.length ≠ vb.length
    · simp [cosine_similarity, hlen] at h
    by_cases hz : (va.map (fun x => x * x)).sum = 0 ∨ (vb.map (fun x => x * x)).sum = 0
    · simp [cosine_similarity, hlen, hz] at h
    simp only [cosine_similarity, if_neg hlen, if_neg hz, CosResult.ratio.injEq] at h
    push_neg at hz
    obtain ⟨-, hA, hB⟩ := h
    have hA' : 0 < normA := hA ▸ (sum_sq_nonneg va).lt_of_ne (Ne.symm hz.1)
    have hB' : 0 < normB := hB ▸ (sum_sq_nonneg vb).lt_of_ne (Ne.symm hz.2)
    refine ⟨hA', hB', mul_ne_zero ?_ ?_⟩
    · exact ne_of_gt (Real.sqrt_pos.mpr (by exact_mod_cast hA'))
    · exact ne_of_gt (Real.sqrt_pos.mpr (by exact_mod_cast hB'))

unseal Rat.add Rat.mul in
/-- Witness for C10 at concrete vectors: a NULL argument, a length mismatch,
a zero-norm pair, and one reached division with positive norms. -/
theorem C10_cosine_total_witness :
    cosine_similarity (some [1, 2]) none = .zero ∧
    cosine_similarity (some [1, 2]) (some [1]) = .zero ∧
    cosine_similarity (some [0, 0]) (some [1, 1]) = .zero ∧
    (0 : ℚ) < 5 ∧
    Real.sqrt ((5 : ℚ) : ℝ) * Real.sqrt ((5 : ℚ) : ℝ) ≠ 0 :=
  ⟨(C10_cosine_total (some [1, 2]) none).2.1 rfl,
   (C10_cosine_total (some [1, 2]) (some [1])).2.2.1 _ _ rfl rfl (by decide),
   (C10_cosine_total (some [0, 0]) (some [1, 1])).2.2.2.1 _ _ rfl rfl (Or.inl (by decide)),
   ((C10_cosine_total (some [1, 2]) (some [2, 1])).2.2.2.2 4 5 5 (by decide)).1,
   ((C10_cosine_total (some [1, 2]) (some [2, 1])).2.2.2.2 4 5 5 (by decide)).2.2⟩

/-- C2 (amended): when the splitter yields zero chunks, `processDocument`
raises `No chunks generated from document` and the catch branch marks the
document `failed`; `chunk_count` is not written. -/
theorem C2_zero_chunks_marks_failed (docs : List String)
    (splitter : List String → List String) (embed : Nat → Option (List Int))
    (hne : docs ≠ []) (hz : splitter docs = []) :
    processDocument (some docs) splitter embed =
      ⟨"failed", none, .error "No chunks generated from document"⟩ := by
  have hlen : ¬ docs.length = 0 := by simpa [List.length_eq_zero] using hne
  simp [processDocument, hlen, hz]

/-- Witness for C2: a one-document input whose splitter output is empty. -/
theorem C2_zero_chunks_marks_failed_witness :
    processDocument (some ["A. B. C."]) (fun _ => []) (fun _ => none) =
      ⟨"failed", none, .error "No chunks generated from document"⟩ :=
  C2_zero_chunks_marks_failed ["A. B. C."] (fun _ => []) (fun _ => none)
    (by simp) rfl

/-- C2 counterexample: with extracted content present but zero chunks after
splitting, the document ends `failed` with no `chunk_count` written — not
`completed` with `chunk_count = 0` as claimed. -/
theorem C2_counterexample :
    (processDocument (some ["A. B. C."]) (fun _ => []) (fun _ => none)).status = "failed" ∧
    ¬ ((processDocument (some ["A. B. C."]) (fun _ => []) (fun _ => none)).status = "completed" ∧
        (processDocument (some ["A. B. C."]) (fun _ => []) (fun _ => none)).chunk_count = some 0) := by
  decide

/-- C3 (amended): whenever adding the next sentence would exceed the
1000-character target and the current fragment is non-empty, the fragment is
closed (trimmed) and the next fragment is seeded with the leading
`chunkOverlap` (200) characters — `currentChunk.substring(0, 200)` — of the
fragment just closed, after which sentence accumulation continues. -/
theorem C3_overlap_seeding (sentence : List Char) (rest : List (List Char))
    (currentChunk : List Char) (currentLength : Nat)
    (hb : currentLength + sentence.length > chunkSize) (hne : currentChunk ≠ []) :
    chunkLoop (sentence :: rest) currentChunk currentLength =
      trimChars currentChunk ::
        chunkLoop rest (currentChunk.take chunkOverlap ++ sentence)
          (currentChunk.take chunkOverlap ++ sentence).length := by
  rw [chunkLoop, if_pos ⟨hb, hne⟩]

/-- Witness for C3 at a concrete boundary: a 1000-character accumulated
fragment followed by a 61-character sentence. -/
theorem C3_overlap_seeding_witness :
    chunkLoop [cS2] cS1 1000 =
      trimChars cS1 ::
        chunkLoop [] (cS1.take chunkOverlap ++ cS2) (cS1.take chunkOverlap ++ cS2).length :=
  C3_overlap_seeding cS2 [] cS1 1000 (by decide) (by decide)

set_option maxRecDepth 10000 in
/-- C3 counterexample: on `cText3` the second produced chunk is seeded with
the leading 200 characters of the closed fragment, and differs from the
chunk the claim predicts (seeded with the trailing 200 characters). -/
theorem C3_counterexample :
    splitIntoChunks cText3 = [cS1, trimChars (cS1.take chunkOverlap ++ cS2)] ∧
    splitIntoChunks cText3 ≠
      [cS1, trimChars (cS1.drop (cS1.length - chunkOverlap) ++ cS2)] := by
  decide

/-- Documents selected by the monitor's query are rows of the table that
satisfy the stuck condition. -/
theorem mem_stuck_selection {docs : List DocRow} {d : DocRow}
    (h : d ∈ (List.insertionSort oldestFirst (docs.filter isStuck)).take 10) :
    d ∈ docs ∧ isStuck d = true := by
  have h1 : d ∈ List.insertionSort oldestFirst (docs.filter isStuck) :=
    List.mem_of_mem_take h
  have h2 : d ∈ docs.filter isStuck :=
    (List.perm_insertionSort oldestFirst (docs.filter isStuck)).mem_iff.mp h1
  simpa using List.mem_filter.mp h2

/-- C4 (amended): every queue job pushed by the monitor carries the constant
`retryCount = 1` and `maxRetries = 3` and comes from a stuck document of the
table; a document all of whose table rows with its id are inside the
threshold window is never requeued; and every document the monitor rewrites
is reset to `pending`. -/
theorem C4_monitor_requeue (docs : List DocRow) :
    (∀ j ∈ (monitorStuckDocuments docs).2,
        j.retryCount = 1 ∧ j.maxRetries = MAX_RETRIES ∧
        ∃ d ∈ docs, isStuck d = true ∧ j.documentId = d.id ∧
          j.filePath = d.file_path ∧ j.mimeType = d.mime_type) ∧
    (∀ d ∈ docs, (∀ d' ∈ docs, d'.id = d.id → isStuck d' = false) →
        ∀ j ∈ (monitorStuckDocuments docs).2, j.documentId ≠ d.id) ∧
    (∀ d ∈ (monitorStuckDocuments docs).1, d.status = "pending") := by
  refine ⟨?_, ?_, ?_⟩
  · intro j hj
    obtain ⟨d, hd, rfl⟩ := List.mem_map.mp hj
    obtain ⟨hdocs, hstuck⟩ := mem_stuck_selection hd
    exact ⟨rfl, rfl, d, hdocs, hstuck, rfl, rfl, rfl⟩
  · intro d hd hfresh j hj hid
    obtain ⟨d', hd', rfl⟩ := List.mem_map.mp hj
    obtain ⟨hdocs', hstuck'⟩ := mem_stuck_selection hd'
    have hfalse := hfresh d' hdocs' hid
    rw [hfalse] at hstuck'
    exact Bool.false_ne_true hstuck'
  · intro d hd
    obtain ⟨d', hd', rfl⟩ := List.mem_map.mp hd
    rfl

/-- Witness for C4: with one stuck and one fresh document, the produced job
carries `retryCount 1` and `maxRetries 3`, and the fresh document gets no
job. -/
theorem C4_monitor_requeue_witness :
    (⟨"doc-1", "a.pdf", "application/pdf", 1, 3⟩ : QueueJob).retryCount = 1 ∧
    (⟨"doc-1", "a.pdf", "application/pdf", 1, 3⟩ : QueueJob).maxRetries = MAX_RETRIES :=
  ⟨((C4_monitor_requeue [stuckDoc, freshDoc]).1 _ (by decide)).1,
   ((C4_monitor_requeue [stuckDoc, freshDoc]).1 _ (by decide)).2.1⟩

/-- C4 counterexample: a document stuck in `processing` for 20 minutes whose
previous job carried `retryCount = 1` is requeued with `retryCount = 1`
again, not the claimed previous + 1. -/
theorem C4_counterexample :
    (monitorStuckDocuments [stuckDoc]).2.map (fun j => j.retryCount) = [1] ∧
    (monitorStuckDocuments [stuckDoc]).2.map (fun j => j.retryCount) ≠ [1 + 1] := by
  decide

/-- C5 (amended): when processing a valid dequeued job raises, the worker
marks the `processing_jobs` row `failed` with the error message and rethrows;
`retry_count` is left unchanged and nothing is pushed back onto the queue. -/
theorem C5_worker_failure_no_retry (d f m e : String) (row : ProcessingJobRow) :
    handleDocumentProcessing ⟨some d, some f, some m⟩ row (.error e) =
      ⟨⟨"failed", row.retry_count, some e⟩, [], .error e⟩ := rfl

/-- C5 counterexample: a failing job whose row holds `retry_count = 1` ends
with `retry_count` still 1 — not `1 + 1` — and with nothing re-pushed onto
the queue. -/
theorem C5_counterexample :
    (handleDocumentProcessing ⟨some "doc-1", some "f.pdf", some "application/pdf"⟩
        ⟨"processing", 1, none⟩ (.error "boom")).row.retry_count = 1 ∧
    (handleDocumentProcessing ⟨some "doc-1", some "f.pdf", some "application/pdf"⟩
        ⟨"processing", 1, none⟩ (.error "boom")).row.retry_count ≠ 1 + 1 ∧
    (handleDocumentProcessing ⟨some "doc-1", some "f.pdf", some "application/pdf"⟩
        ⟨"processing", 1, none⟩ (.error "boom")).requeued = [] := by
  decide

/-- C9 (amended): the lexical search is deterministically ordered by rank
descending with ties broken by chunk index ascending. -/
theorem C9_lexical_tie_break (rows : List TextSearchRow) (limit : Nat) :
    List.Pairwise
      (fun a b => b.rank ≤ a.rank ∧ (a.rank = b.rank → a.chunk_index ≤ b.chunk_index))
      (textSearch rows limit) := by
  simp only [textSearch]
  refine List.Pairwise.sublist (List.take_sublist _ _)
    ((List.sorted_insertionSort rankOrder rows).imp ?_)
  intro a b hab
  rcases hab with hlt | ⟨heq, hle⟩
  · refine ⟨le_of_lt hlt, fun heq => absurd hlt ?_⟩
    rw [heq]
    exact lt_irrefl _
  · exact ⟨le_of_eq heq.symm, fun _ => hle⟩

/-- Requests issued by the retry loop never exceed the remaining attempt
budget. -/
theorem generateEmbeddingLoop_requests_le (primary alt : Nat → FetchOutcome)
    (maxRetries : Nat) :
    ∀ (remaining attempt : Nat) (lastErr : String),
      (generateEmbeddingLoop primary alt maxRetries attempt remaining lastErr).requests ≤
        remaining := by
  intro remaining
  induction remaining with
  | zero =>
    intro attempt lastErr
    simp [generateEmbeddingLoop]
  | succ n ih =>
    intro attempt lastErr
    simp only [generateEmbeddingLoop]
    cases attemptResult (primary attempt) (alt attempt) with
    | ok e => simp
    | error msg =>
      by_cases hs : skipRetry msg = true
      · simp [hs]
      · have := ih (attempt + 1) msg
        simp only [Bool.not_eq_true] at hs
        simp [hs]
        omega

/-- A 500 response throws `HTTP 500: ...` (no alternate endpoint, no
success). -/
theorem attemptResult_500 (body ct : String) (sh : RespShape) (alt : FetchOutcome) :
    attemptResult (.response 500 body ct sh) alt = .error (httpErrorMessage 500 body) := by
  simp [attemptResult]

/-- A 403 response throws `HTTP 403: ...`. -/
theorem attemptResult_403 (body ct : String) (sh : RespShape) (alt : FetchOutcome) :
    attemptResult (.response 403 body ct sh) alt = .error (httpErrorMessage 403 body) := by
  simp [attemptResult]

/-- One failed, non-skipped attempt of the retry loop recurses with the
remaining budget decremented and the request counted. -/
theorem generateEmbeddingLoop_error_step (primary alt : Nat → FetchOutcome)
    (maxRetries attempt n : Nat) (lastErr msg : String)
    (ha : attemptResult (primary attempt) (alt attempt) = .error msg)
    (hs : skipRetry msg = false) :
    generateEmbeddingLoop primary alt maxRetries attempt (n + 1) lastErr =
      ⟨(generateEmbeddingLoop primary alt maxRetries (attempt + 1) n msg).result,
       (generateEmbeddingLoop primary alt maxRetries (attempt + 1) n msg).requests + 1⟩ := by
  simp [generateEmbeddingLoop, ha, hs]

/-- C6: `generateEmbedding` performs at most `maxRetries` (3) request
attempts; when the service returns HTTP 500 on every attempt, the call fails
with the aggregated error carrying the last underlying message, after
exactly 3 requests — a fourth request is never issued. -/
theorem C6_retry_budget (primary alt : Nat → FetchOutcome) (t body ct : String)
    (sh : RespShape) :
    (generateEmbedding (some t) primary alt 3).requests ≤ 3 ∧
    (trimChars t.data ≠ [] →
      (∀ n, primary n = .response 500 body ct sh) →
      skipRetry (httpErrorMessage 500 body) = false →
      generateEmbedding (some t) primary alt 3 =
        ⟨.error ("Embedding generation failed after 3 attempts: " ++
            httpErrorMessage 500 body), 3⟩) := by
  constructor
  · by_cases h1 : t = ""
    · simp [generateEmbedding, h1]
    · by_cases h2 : (trimChars t.data).length = 0
      · simp [generateEmbedding, h1, h2]
      · simp only [generateEmbedding, if_neg h1, if_neg h2]
        exact generateEmbeddingLoop_requests_le primary alt 3 3 1 ""
  · intro ht hp hskip
    have h1 : ¬ t = "" := by
      intro h
      apply ht
      rw [h]
      rfl
    have h2 : ¬ (trimChars t.data).length = 0 := by
      simpa [List.length_eq_zero] using ht
    simp only [generateEmbedding, if_neg h1, if_neg h2]
    have c1 : generateEmbeddingLoop primary alt 3 1 3 "" =
        ⟨(generateEmbeddingLoop primary alt 3 2 2 (httpErrorMessage 500 body)).result,
         (generateEmbeddingLoop primary alt 3 2 2 (httpErrorMessage 500 body)).requests + 1⟩ :=
      generateEmbeddingLoop_error_step primary alt 3 1 2 "" _
        (by rw [hp 1]; exact attemptResult_500 body ct sh (alt 1)) hskip
    have c2 : generateEmbeddingLoop primary alt 3 2 2 (httpErrorMessage 500 body) =
        ⟨(generateEmbeddingLoop primary alt 3 3 1 (httpErrorMessage 500 body)).result,
         (generateEmbeddingLoop primary alt 3 3 1 (httpErrorMessage 500 body)).requests + 1⟩ :=
      generateEmbeddingLoop_error_step primary alt 3 2 1 _ _
        (by rw [hp 2]; exact attemptResult_500 body ct sh (alt 2)) hskip
    have c3 : generateEmbeddingLoop primary alt 3 3 1 (httpErrorMessage 500 body) =
        ⟨(generateEmbeddingLoop primary alt 3 4 0 (httpErrorMessage 500 body)).result,
         (generateEmbeddingLoop primary alt 3 4 0 (httpErrorMessage 500 body)).requests + 1⟩ :=
      generateEmbeddingLoop_error_step primary alt 3 3 0 _ _
        (by rw [hp 3]; exact attemptResult_500 body ct sh (alt 3)) hskip
    have cbase : generateEmbeddingLoop primary alt 3 4 0 (httpErrorMessage 500 body) =
        ⟨.error ("Embedding generation failed after " ++ toString 3 ++ " attempts: " ++
            httpErrorMessage 500 body), 0⟩ := rfl
    rw [c1, c2, c3, cbase]
    have hagg : ("Embedding generation failed after " ++ toString (3 : Nat) ++
        " attempts: ") = "Embedding generation failed after 3 attempts: " := by decide
    rw [hagg]

/-- Witness for C6: a service answering 500 with an empty body on every
attempt exhausts the 3-attempt budget. -/
theorem C6_retry_budget_witness :
    generateEmbedding (some "hello") (fun _ => .response 500 "" "text/html" .unrecognized)
        (fun _ => .aborted) 3 =
      ⟨.error ("Embedding generation failed after 3 attempts: " ++ httpErrorMessage 500 ""),
        3⟩ :=
  (C6_retry_budget (fun _ => .response 500 "" "text/html" .unrecognized)
      (fun _ => .aborted) "hello" "" "text/html" .unrecognized).2
    (by decide) (fun _ => rfl) (by decide)

/-- A prefix of a list is a prefix of any extension of it. -/
theorem prefixOfChars_append (pat : List Char) :
    ∀ (l t : List Char), prefixOfChars pat l = true → prefixOfChars pat (l ++ t) = true := by
  induction pat with
  | nil =>
    intro l t _
    rfl
  | cons a as ih =>
    intro l t h
    cases l with
    | nil => simp [prefixOfChars] at h
    | cons b bs =>
      simp only [List.cons_append, prefixOfChars, Bool.and_eq_true] at h ⊢
      exact ⟨h.1, ih bs t h.2⟩

/-- The empty pattern occurs in every list. -/
theorem subOccurs_nil_pat : ∀ s, subOccurs [] s = true := by
  intro s
  cases s with
  | nil => rfl
  | cons c rest => simp [subOccurs, prefixOfChars]

/-- An occurrence survives appending on the right. -/
theorem subOccurs_append_left (pat : List Char) :
    ∀ (s t : List Char), subOccurs pat s = true → subOccurs pat (s ++ t) = true := by
  intro s
  induction s with
  | nil =>
    intro t h
    have hp : pat = [] := by
      cases pat with
      | nil => rfl
      | cons a as => simp [subOccurs, List.isEmpty] at h
    subst hp
    simp [subOccurs_nil_pat]
  | cons c cs ih =>
    intro t h
    simp only [subOccurs, Bool.or_eq_true] at h
    rcases h with h | h
    · simp only [List.cons_append, subOccurs, Bool.or_eq_true]
      exact Or.inl (by simpa using prefixOfChars_append pat (c :: cs) t h)
    · simp only [List.cons_append, subOccurs, Bool.or_eq_true]
      exact Or.inr (ih t h)

/-- `String.includes` is monotone under appending on the right. -/
theorem containsSub_append_left (s t pat : String) (h : containsSub s pat = true) :
    containsSub (s ++ t) pat = true := by
  simp only [containsSub, String.data_append] at h ⊢
  exact subOccurs_append_left _ _ _ h

/-- Every `HTTP 403: ...` message matches the retry-skip test: `403` occurs
in its prefix whatever the body is. -/
theorem skipRetry_403 (body : String) : skipRetry (httpErrorMessage 403 body) = true := by
  by_cases hb : body = ""
  · subst hb
    decide
  · have h403 : containsSub (httpErrorMessage 403 body) "403" = true := by
      simp only [httpErrorMessage, if_neg hb]
      exact containsSub_append_left ("HTTP " ++ toString 403 ++ ": ") body "403" (by decide)
    simp [skipRetry, h403]

/-- C7 (amended): invalid or empty input aborts before any request (zero
attempts); an attempt whose thrown message matches the retry-skip test —
in particular every HTTP 403 — is rethrown at once after a single request;
but a malformed-shape response is retried (see the counterexample). -/
theorem C7_permanent_failures (primary alt : Nat → FetchOutcome) (maxRetries : Nat)
    (t body ct : String) (sh : RespShape) :
    generateEmbedding none primary alt maxRetries =
      ⟨.error "Invalid input: text must be a non-empty string", 0⟩ ∧
    generateEmbedding (some "") primary alt maxRetries =
      ⟨.error "Invalid input: text must be a non-empty string", 0⟩ ∧
    (∀ msg, trimChars t.data ≠ [] → 1 ≤ maxRetries →
        attemptResult (primary 1) (alt 1) = .error msg → skipRetry msg = true →
        generateEmbedding (some t) primary alt maxRetries = ⟨.error msg, 1⟩) ∧
    (trimChars t.data ≠ [] → 1 ≤ maxRetries → primary 1 = .response 403 body ct sh →
        generateEmbedding (some t) primary alt maxRetries =
          ⟨.error (httpErrorMessage 403 body), 1⟩) := by
  have key : ∀ msg, trimChars t.data ≠ [] → 1 ≤ maxRetries →
      attemptResult (primary 1) (alt 1) = .error msg → skipRetry msg = true →
      generateEmbedding (some t) primary alt maxRetries = ⟨.error msg, 1⟩ := by
    intro msg ht hmr ha hs
    have h1 : ¬ t = "" := by
      intro h
      apply ht
      rw [h]
      rfl
    have h2 : ¬ (trimChars t.data).length = 0 := by
      simpa [List.length_eq_zero] using ht
    simp only [generateEmbedding, if_neg h1, if_neg h2]
    obtain ⟨k, rfl⟩ : ∃ k, maxRetries = k + 1 := ⟨maxRetries - 1, by omega⟩
    simp [generateEmbeddingLoop, ha, hs]
  refine ⟨rfl, rfl, key, ?_⟩
  intro ht hmr hp
  exact key _ ht hmr (by rw [hp]; exact attemptResult_403 body ct sh (alt 1))
    (skipRetry_403 body)

/-- Witness for C7: a 403 with a non-empty body aborts after one request. -/
theorem C7_permanent_failures_witness :
    generateEmbedding (some "q") (fun _ => .response 403 "nope" "text/plain" .unrecognized)
        (fun _ => .aborted) 3 = ⟨.error (httpErrorMessage 403 "nope"), 1⟩ :=
  (C7_permanent_failures (fun _ => .response 403 "nope" "text/plain" .unrecognized)
      (fun _ => .aborted) 3 "q" "nope" "text/plain" .unrecognized).2.2.2
    (by decide) (by decide) rfl

/-- C7 counterexample: a malformed (unrecognized-shape) response is not a
permanent failure for the code: the first attempt throws the
unexpected-format error, a retry is consumed, and a second request succeeds —
the call does not abort on the first attempt. -/
theorem C7_counterexample :
    generateEmbedding (some "hello") primaryCexC7 (fun _ => .aborted) 3 = ⟨.ok [1], 2⟩ ∧
    (generateEmbedding (some "hello") primaryCexC7 (fun _ => .aborted) 3).requests ≠ 1 ∧
    attemptResult (primaryCexC7 1) FetchOutcome.aborted =
      .error "Unexpected response format from embeddings API" := by
  decide

/-- C9 counterexample: a hybrid search returning two equal-score results
keeps them in merge order — chunk index 5 before chunk index 2 — so the
relative order of equal scores is not chunk index ascending. -/
theorem C9_counterexample :
    hybridSearch 10 (some [⟨1, 5, 2⟩, ⟨2, 2, 2⟩]) (some []) =
      [⟨1, 5, 2, "text"⟩, ⟨2, 2, 2, "text"⟩] ∧
    (⟨1, 5, 2, "text"⟩ : MergedRow).score = (⟨2, 2, 2, "text"⟩ : MergedRow).score ∧
    ¬ (⟨1, 5, 2, "text"⟩ : MergedRow).chunk_index ≤ (⟨2, 2, 2, "text"⟩ : MergedRow).chunk_index := by
  decide

/-- `fuseWith` never changes the id of an entry. -/
theorem fuseWith_id (ss : List SubRow) (m : MergedRow) : (fuseWith ss m).id = m.id := by
  unfold fuseWith
  split <;> rfl

/-- An entry whose id no semantic row shares is left unchanged. -/
theorem fuseWith_of_not_mem {ss : List SubRow} {m : MergedRow}
    (hnot : m.id ∉ ss.map SubRow.id) : fuseWith ss m = m := by
  unfold fuseWith
  rw [List.find?_eq_none.mpr ?_]
  intro x hx
  simp only [beq_iff_eq]
  intro hEq
  exact hnot (hEq ▸ List.mem_map_of_mem SubRow.id hx)

/-- A semantic row with a different id does not affect `fuseWith`. -/
theorem fuseWith_cons_of_ne {s : SubRow} {m : MergedRow} (ss : List SubRow)
    (h : s.id ≠ m.id) : fuseWith (s :: ss) m = fuseWith ss m := by
  unfold fuseWith
  rw [List.find?_cons_of_neg]
  simp only [beq_iff_eq]
  exact h

/-- A semantic row sharing the id, with no later row sharing it, turns the
entry `hybrid` with the max score. -/
theorem fuseWith_cons_of_eq {s : SubRow} {m : MergedRow} (ss : List SubRow)
    (h : s.id = m.id) :
    fuseWith (s :: ss) m =
      { m with search_type := "hybrid", score := max m.score s.score } := by
  unfold fuseWith
  rw [List.find?_cons_of_pos _ (by simp [h])]

/-- `markHybrid` preserves the ids of the combined list. -/
theorem markHybrid_map_id (acc : List MergedRow) (r : SubRow) :
    (markHybrid acc r).map MergedRow.id = acc.map MergedRow.id := by
  induction acc with
  | nil => rfl
  | cons m ms ih =>
    by_cases h : m.id = r.id
    · simp [markHybrid, h]
    · simp [markHybrid, h, ih]

/-- The text `forEach` over id-distinct rows disjoint from `seenIds` appends
them all, labeled `text`. -/
theorem addTextRows_eq (rs : List SubRow) :
    ∀ (acc : List MergedRow) (seen : List Nat),
      (rs.map SubRow.id).Nodup → (∀ r ∈ rs, r.id ∉ seen) →
      addTextRows (acc, seen) rs = (acc ++ rs.map textRow, seen ++ rs.map SubRow.id) := by
  induction rs with
  | nil =>
    intro acc seen _ _
    simp [addTextRows]
  | cons r rs ih =>
    intro acc seen hnd hdisj
    simp only [List.map_cons, List.nodup_cons] at hnd
    have hr : r.id ∉ seen := hdisj r (List.mem_cons_self r rs)
    rw [addTextRows, if_neg hr]
    rw [ih (acc ++ [textRow r]) (seen ++ [r.id]) hnd.2 ?_]
    · simp
    · intro r' hr'
      simp only [List.mem_append, List.mem_singleton, not_or]
      refine ⟨hdisj r' (List.mem_cons_of_mem r hr'), fun h => hnd.1 ?_⟩
      rw [← h]
      exact List.mem_map_of_mem SubRow.id hr'

/-- Applying `markHybrid` for `s` and then fusing with the rest is fusing
with `s :: ss`, on id-distinct states with `s` not recurring later. -/
theorem markHybrid_map_fuseWith (s : SubRow) (ss : List SubRow) :
    ∀ (acc : List MergedRow), (acc.map MergedRow.id).Nodup → s.id ∉ ss.map SubRow.id →
      (markHybrid acc s).map (fuseWith ss) = acc.map (fuseWith (s :: ss)) := by
  intro acc
  induction acc with
  | nil =>
    intro _ _
    rfl
  | cons m ms ih =>
    intro hnd hnot
    simp only [List.map_cons, List.nodup_cons] at hnd
    by_cases h : m.id = s.id
    · simp only [markHybrid, if_pos h, List.map_cons]
      congr 1
      · have hm' : ({ m with search_type := "hybrid", score := max m.score s.score } :
            MergedRow).id = m.id := rfl
        rw [fuseWith_of_not_mem (by rw [hm', h]; exact hnot)]
        rw [fuseWith_cons_of_eq ss h.symm]
      · apply List.map_congr_left
        intro x hx
        have hxne : s.id ≠ x.id := by
          intro hEq
          apply hnd.1
          rw [h, hEq]
          exact List.mem_map_of_mem MergedRow.id hx
        exact (fuseWith_cons_of_ne ss hxne).symm
    · simp only [markHybrid, if_neg h, List.map_cons]
      congr 1
      · exact (fuseWith_cons_of_ne ss (fun hEq => h hEq.symm)).symm
      · exact ih hnd.2 hnot

/-- Marking an already-present id `hybrid` commutes with the pointwise
specification. -/
theorem semSpec_markHybrid (acc : List MergedRow) (s : SubRow) (ss : List SubRow)
    (hnd : (acc.map MergedRow.id).Nodup) (hmem : s.id ∈ acc.map MergedRow.id)
    (hnot : s.id ∉ ss.map SubRow.id) :
    semSpec (markHybrid acc s) ss = semSpec acc (s :: ss) := by
  unfold semSpec
  rw [markHybrid_map_fuseWith s ss acc hnd hnot, markHybrid_map_id]
  congr 1
  rw [List.filter_cons_of_neg]
  simp [hmem]

/-- Pushing an unseen semantic row and fusing with the rest is fusing with
`s :: ss`. -/
theorem semSpec_append_semantic (acc : List MergedRow) (s : SubRow) (ss : List SubRow)
    (hnm : s.id ∉ acc.map MergedRow.id) (hnot : s.id ∉ ss.map SubRow.id) :
    semSpec (acc ++ [semanticRow s]) ss = semSpec acc (s :: ss) := by
  unfold semSpec
  rw [List.map_append]
  have h1 : List.map (fuseWith ss) [semanticRow s] = [semanticRow s] := by
    rw [List.map_singleton, fuseWith_of_not_mem (show (semanticRow s).id ∉ ss.map SubRow.id from hnot)]
  have h2 : acc.map (fuseWith ss) = acc.map (fuseWith (s :: ss)) := by
    apply List.map_congr_left
    intro m hm
    have hne : s.id ≠ m.id := fun hEq => hnm (hEq ▸ List.mem_map_of_mem MergedRow.id hm)
    exact (fuseWith_cons_of_ne ss hne).symm
  have h3 : (acc ++ [semanticRow s]).map MergedRow.id = acc.map MergedRow.id ++ [s.id] := by
    simp [semanticRow]
  have h4 : ss.filter (fun x => x.id ∉ (acc ++ [semanticRow s]).map MergedRow.id) =
      ss.filter (fun x => x.id ∉ acc.map MergedRow.id) := by
    apply List.filter_congr
    intro x hx
    have hxne : x.id ≠ s.id := fun hEq => hnot (hEq ▸ List.mem_map_of_mem SubRow.id hx)
    simp [h3, hxne]
  have h5 : (s :: ss).filter (fun x => x.id ∉ acc.map MergedRow.id) =
      s :: ss.filter (fun x => x.id ∉ acc.map MergedRow.id) := by
    rw [List.filter_cons_of_pos]
    simp [hnm]
  rw [h1, h2, h4, h5]
  simp

/-- The semantic `forEach` from a canonical state computes `semSpec`. -/
theorem addSemanticRows_eq (ss : List SubRow) :
    ∀ (acc : List MergedRow), (acc.map MergedRow.id).Nodup → (ss.map SubRow.id).Nodup →
      (addSemanticRows (acc, acc.map MergedRow.id) ss).1 = semSpec acc ss := by
  induction ss with
  | nil =>
    intro acc _ _
    have hf : fuseWith [] = fun m => m := funext fun m => rfl
    simp [addSemanticRows, semSpec, hf]
  | cons s ss ih =>
    intro acc hacc hss
    simp only [List.map_cons, List.nodup_cons] at hss
    by_cases hmem : s.id ∈ acc.map MergedRow.id
    · rw [addSemanticRows, if_pos hmem]
      have hstep := ih (markHybrid acc s) (by rw [markHybrid_map_id]; exact hacc) hss.2
      rw [markHybrid_map_id] at hstep
      rw [hstep]
      exact semSpec_markHybrid acc s ss hacc hmem hss.1
    · rw [addSemanticRows, if_neg hmem]
      have hacc' : ((acc ++ [semanticRow s]).map MergedRow.id).Nodup := by
        rw [show (acc ++ [semanticRow s]).map MergedRow.id = acc.map MergedRow.id ++ [s.id]
          from by simp [semanticRow]]
        simp [List.nodup_append, hacc, hmem]
      have hstep := ih (acc ++ [semanticRow s]) hacc' hss.2
      have hseen : acc.map MergedRow.id ++ [s.id] = (acc ++ [semanticRow s]).map MergedRow.id := by
        simp [semanticRow]
      rw [hseen, hstep]
      exact semSpec_append_semantic acc s ss hmem hss.1

/-- Closed form of the hybrid combine phase on fulfilled sub-searches with
id-distinct rows. -/
theorem combineResults_eq (ts ss : List SubRow)
    (hts : (ts.map SubRow.id).Nodup) (hss : (ss.map SubRow.id).Nodup) :
    combineResults (some ts) (some ss) = semSpec (ts.map textRow) ss := by
  show (addSemanticRows (addTextRows ([], []) ts) ss).1 = semSpec (ts.map textRow) ss
  rw [addTextRows_eq ts [] [] hts (by simp)]
  simp only [List.nil_append]
  have hid : ts.map SubRow.id = (ts.map textRow).map MergedRow.id := by
    rw [List.map_map]
    rfl
  rw [hid]
  exact addSemanticRows_eq ss (ts.map textRow) (by rw [← hid]; exact hts) hss

/-- On id-distinct rows, `find?` by id returns exactly the matching row. -/
theorem find_by_id_nodup (ss : List SubRow) (s : SubRow)
    (hnd : (ss.map SubRow.id).Nodup) (hs : s ∈ ss) :
    ss.find? (fun x => x.id == s.id) = some s := by
  induction ss with
  | nil => cases hs
  | cons a as ih =>
    simp only [List.map_cons, List.nodup_cons] at hnd
    rcases List.mem_cons.mp hs with rfl | hs'
    · exact List.find?_cons_of_pos as (by simp)
    · rw [List.find?_cons_of_neg]
      · exact ih hnd.2 hs'
      · simp only [beq_iff_eq]
        intro hEq
        apply hnd.1
        rw [hEq]
        exact List.mem_map_of_mem SubRow.id hs'

/-- The ids of the fused list: all of `acc`'s ids then the unmatched
semantic ids. -/
theorem semSpec_map_id (acc : List MergedRow) (ss : List SubRow) :
    (semSpec acc ss).map MergedRow.id =
      acc.map MergedRow.id ++
        (ss.filter (fun s => s.id ∉ acc.map MergedRow.id)).map SubRow.id := by
  unfold semSpec
  rw [List.map_append, List.map_map, List.map_map]
  congr 1
  exact List.map_congr_left (fun m _ => fuseWith_id ss m)

/-- C1: in a hybrid search whose two sub-searches both succeed (with
id-distinct rows each, as delivered by SQL), a chunk id present in both
sub-results appears exactly once in the merged output, relabeled
`search_type = "hybrid"` with score `max(text_score, semantic_score)`; a
chunk id present in exactly one sub-result keeps that sub-result's row,
score and type label; and the final list is the merged set sorted by score
descending and truncated to at most `limit` entries. -/
theorem C1_hybrid_merge (limit : Nat) (ts ss : List SubRow)
    (hts : (ts.map SubRow.id).Nodup) (hss : (ss.map SubRow.id).Nodup) :
    (∀ t ∈ ts, ∀ s ∈ ss, t.id = s.id →
        ((combineResults (some ts) (some ss)).map MergedRow.id).count t.id = 1 ∧
        (⟨t.id, t.chunk_index, max t.score s.score, "hybrid"⟩ : MergedRow) ∈
          combineResults (some ts) (some ss)) ∧
    (∀ t ∈ ts, t.id ∉ ss.map SubRow.id →
        ((combineResults (some ts) (some ss)).map MergedRow.id).count t.id = 1 ∧
        textRow t ∈ combineResults (some ts) (some ss)) ∧
    (∀ s ∈ ss, s.id ∉ ts.map SubRow.id →
        ((combineResults (some ts) (some ss)).map MergedRow.id).count s.id = 1 ∧
        semanticRow s ∈ combineResults (some ts) (some ss)) ∧
    List.Sorted scoreDesc (hybridSearch limit (some ts) (some ss)) ∧
    (hybridSearch limit (some ts) (some ss)).length ≤ limit ∧
    (∀ m ∈ hybridSearch limit (some ts) (some ss), m ∈ combineResults (some ts) (some ss)) := by
  have hC := combineResults_eq ts ss hts hss
  have hidts : (ts.map textRow).map MergedRow.id = ts.map SubRow.id := by
    rw [List.map_map]
    rfl
  have hcount1 : ∀ v, v ∈ ts.map SubRow.id →
      ((combineResults (some ts) (some ss)).map MergedRow.id).count v = 1 := by
    intro v hv
    rw [hC, semSpec_map_id, List.count_append]
    have e1 : ((ts.map textRow).map MergedRow.id).count v = 1 := by
      rw [hidts]
      exact List.count_eq_one_of_mem hts hv
    have e2 : ((ss.filter (fun x => x.id ∉ (ts.map textRow).map MergedRow.id)).map
        SubRow.id).count v = 0 := by
      rw [List.count_eq_zero]
      intro hmm
      obtain ⟨x, hx, hxid⟩ := List.mem_map.mp hmm
      have hxf := List.mem_filter.mp hx
      have hxnot := hxf.2
      rw [hidts] at hxnot
      simp only [decide_eq_true_eq] at hxnot
      exact hxnot (hxid ▸ hv)
    rw [e1, e2]
  refine ⟨?_, ?_, ?_, ?_, ?_, ?_⟩
  · intro t ht s hs hid
    refine ⟨hcount1 t.id (List.mem_map_of_mem SubRow.id ht), ?_⟩
    rw [hC]
    unfold semSpec
    apply List.mem_append_left
    have hfuse : fuseWith ss (textRow t) =
        ⟨t.id, t.chunk_index, max t.score s.score, "hybrid"⟩ := by
      unfold fuseWith
      have hfind : ss.find? (fun x => x.id == (textRow t).id) = some s := by
        simp only [show (textRow t).id = s.id from hid]
        exact find_by_id_nodup ss s hss hs
      rw [hfind]
      rfl
    rw [← hfuse]
    exact List.mem_map_of_mem (fuseWith ss) (List.mem_map_of_mem textRow ht)
  · intro t ht hnot
    refine ⟨hcount1 t.id (List.mem_map_of_mem SubRow.id ht), ?_⟩
    rw [hC]
    unfold semSpec
    apply List.mem_append_left
    rw [← fuseWith_of_not_mem (show (textRow t).id ∉ ss.map SubRow.id from hnot)]
    exact List.mem_map_of_mem (fuseWith ss) (List.mem_map_of_mem textRow ht)
  · intro s hs hnot
    have hsfilter : s ∈ ss.filter (fun x => x.id ∉ (ts.map textRow).map MergedRow.id) := by
      refine List.mem_filter.mpr ⟨hs, ?_⟩
      rw [hidts]
      simpa using hnot
    constructor
    · rw [hC, semSpec_map_id, List.count_append]
      have e1 : ((ts.map textRow).map MergedRow.id).count s.id = 0 := by
        rw [hidts, List.count_eq_zero]
        exact hnot
      have e2 : ((ss.filter (fun x => x.id ∉ (ts.map textRow).map MergedRow.id)).map
          SubRow.id).count s.id = 1 := by
        have hndf : ((ss.filter (fun x => x.id ∉ (ts.map textRow).map MergedRow.id)).map
            SubRow.id).Nodup :=
          List.Nodup.sublist (List.Sublist.map SubRow.id (List.filter_sublist ss)) hss
        exact List.count_eq_one_of_mem hndf (List.mem_map_of_mem SubRow.id hsfilter)
      rw [e1, e2]
    · rw [hC]
      unfold semSpec
      exact List.mem_append_right _ (List.mem_map_of_mem semanticRow hsfilter)
  · simp only [hybridSearch]
    exact List.Pairwise.sublist (List.take_sublist _ _)
      (List.sorted_insertionSort scoreDesc (combineResults (some ts) (some ss)))
  · simp only [hybridSearch, List.length_take]
    exact min_le_left _ _
  · intro m hm
    simp only [hybridSearch] at hm
    exact (List.perm_insertionSort scoreDesc _).mem_iff.mp (List.mem_of_mem_take hm)

/-- Witness for C1: chunk id 2 appears in both sub-results and ends up once,
`hybrid`, with the max of its two scores. -/
theorem C1_hybrid_merge_witness :
    ((combineResults (some [⟨1, 0, 3⟩, ⟨2, 1, 2⟩]) (some [⟨2, 1, 5⟩, ⟨7, 4, 1⟩])).map
        MergedRow.id).count 2 = 1 ∧
    (⟨2, 1, max 2 5, "hybrid"⟩ : MergedRow) ∈
      combineResults (some [⟨1, 0, 3⟩, ⟨2, 1, 2⟩]) (some [⟨2, 1, 5⟩, ⟨7, 4, 1⟩]) :=
  (C1_hybrid_merge 10 [⟨1, 0, 3⟩, ⟨2, 1, 2⟩] [⟨2, 1, 5⟩, ⟨7, 4, 1⟩]
      (by decide) (by decide)).1 ⟨2, 1, 2⟩ (by decide) ⟨2, 1, 5⟩ (by decide) rfl

/-- C8: when the semantic sub-search fails entirely, the hybrid route still
returns a value — exactly the lexical sub-search's rows with their original
`text` labels and scores (the lexical sub-result is score-sorted and within
the limit, as delivered by its `ORDER BY ... LIMIT ceil(limit/2)`). -/
theorem C8_semantic_failure_degrades (limit : Nat) (ts : List SubRow)
    (hnd : (ts.map SubRow.id).Nodup)
    (hsorted : List.Pairwise (fun a b : SubRow => b.score ≤ a.score) ts)
    (hlen : ts.length ≤ limit) :
    hybridSearch limit (some ts) none = ts.map textRow := by
  have hcomb : combineResults (some ts) none = ts.map textRow := by
    show (addTextRows ([], []) ts).1 = ts.map textRow
    rw [addTextRows_eq ts [] [] hnd (by simp)]
    rfl
  have hs : List.Sorted scoreDesc (ts.map textRow) := List.pairwise_map.mpr hsorted
  simp only [hybridSearch]
  rw [hcomb, hs.insertionSort_eq]
  exact List.take_of_length_le (by simpa using hlen)

/-- Witness for C8: two lexical rows come back unchanged when the semantic
sub-search is rejected. -/
theorem C8_semantic_failure_degrades_witness :
    hybridSearch 10 (some [⟨1, 0, 3⟩, ⟨2, 1, 2⟩]) none =
      [textRow ⟨1, 0, 3⟩, textRow ⟨2, 1, 2⟩] :=
  C8_semantic_failure_degrades 10 [⟨1, 0, 3⟩, ⟨2, 1, 2⟩] (by decide) (by decide) (by decide)

end DocMining
